import Mathlib

/-!
# Verification of the timekeep session-lifecycle engine

Shallow embedding of the session manager, the reconciliation sweeper, the
process-existence probes and the Windows service control handlers of the
`timekeep` repository, together with theorems settling the specification
claims about them.

Sources embedded:
* `cmd/service/internal/sessions/sessions.go` — `EnsureProgram`,
  `CreateSession`, `EndSession`, `MoveSessionToHistory`,
  `ValidateActiveSessions`;
* `cmd/service/internal/sessions/sessions_linux.go` and
  `sessions_windows.go` — the two `isProcessRunning` variants;
* `cmd/service/service_windows.go` — the `Execute` control loop's
  Pause and Continue branches.

Go maps are embedded as association lists with string keys (the map
operations used by the source are lookup, assignment and delete; the
association list realises them with unique keys, exactly the observable
behaviour of a Go map).  `time.Time` values are embedded as `Nat`
timestamps supplied explicitly by the caller (`time.Now()` becomes a
`now` parameter), and durations as `Int`
(`int64(endTime.Sub(startTime).Seconds())`).  Each repository call may
fail; failures are injected by a `RepoFaults` record so that theorems can
quantify over every combination of persistence failures.
-/

/-- Lookup of a string key in an association list (Go `m[k]`, first match). -/
def alookup {α : Type} : List (String × α) → String → Option α
  | [], _ => none
  | (k, v) :: rest, n => if k = n then some v else alookup rest n

/-- Assignment of a string key in an association list (Go `m[k] = v`):
replaces the first binding of the key, or appends a new binding. -/
def aset {α : Type} : List (String × α) → String → α → List (String × α)
  | [], n, v => [(n, v)]
  | (k, w) :: rest, n, v =>
      if k = n then (n, v) :: rest else (k, w) :: aset rest n v

/-- Deletion of a string key from an association list (Go `delete(m, k)`):
removes every binding of the key. -/
def aerase {α : Type} : List (String × α) → String → List (String × α)
  | [], _ => []
  | (k, w) :: rest, n =>
      if k = n then aerase rest n else (k, w) :: aerase rest n

/-- `Tracked` from `sessions.go`: in-memory per-program session state.
PID sets are embedded as `Finset Nat`; the two `time.Time` fields as `Nat`
timestamps (the Go zero value becoming `0`). -/
structure Tracked where
  category : String
  project  : String
  pids     : Finset Nat
  startAt  : Nat
  lastSeen : Nat
deriving DecidableEq

/-- The session manager's `Programs map[string]*Tracked`. -/
abbrev SMap : Type := List (String × Tracked)

/-- One `session_history` row as produced by `AddToSessionHistoryParams`. -/
structure HistoryRow where
  programName     : String
  startTime       : Nat
  endTime         : Nat
  durationSeconds : Int
deriving DecidableEq

/-- The durable store behind the three repository contracts:
`active` holds the `ActiveSession` rows (name, start time), `history` the
append-only `SessionHistory` rows, `catalog` the per-program cumulative
lifetime in seconds. -/
structure DB where
  active  : List (String × Nat)
  history : List HistoryRow
  catalog : List (String × Int)
deriving DecidableEq

/-- Failure injection for the fallible repository calls: a `true` field
makes the corresponding call return an error (which the Go code logs). -/
structure RepoFaults where
  createActiveFails   : Bool
  getActiveFails      : Bool
  addHistoryFails     : Bool
  updateLifetimeFails : Bool
  removeActiveFails   : Bool
deriving DecidableEq

/-- The fault profile in which every repository call succeeds. -/
def noFaults : RepoFaults :=
  { createActiveFails := false, getActiveFails := false, addHistoryFails := false,
    updateLifetimeFails := false, removeActiveFails := false }

/-- The repository calls `MoveSessionToHistory` can issue, used to record
which persistence calls an invocation actually attempted. -/
inductive RepoCall where
  | getActive
  | addHistory
  | updateLifetime
  | removeActive
deriving DecidableEq

/-- `a.GetActiveSession(ctx, name)`: the start time of the open
`ActiveSession` row, or an error (`none`) when the row is absent or the
call itself fails. -/
def getActiveSession (db : DB) (fl : RepoFaults) (name : String) : Option Nat :=
  if fl.getActiveFails then none else alookup db.active name

/-- `pr.UpdateLifetime`: add a duration to the program's cumulative
lifetime in the catalog. -/
def updateLifetime (db : DB) (name : String) (d : Int) : DB :=
  { db with catalog := db.catalog.map (fun p => if p.1 = name then (p.1, p.2 + d) else p) }

/-- `a.RemoveActiveSession`: delete the program's `ActiveSession` row. -/
def removeActiveSession (db : DB) (name : String) : DB :=
  { db with active := aerase db.active name }

/-- `MoveSessionToHistory` from `sessions.go` (lines 130–165).  Returns the
updated store together with the list of repository calls the invocation
attempted, in source order.  Mirrors the source control flow: an error from
`GetActiveSession` returns at once; an error from `AddToSessionHistory`
returns before `UpdateLifetime` and `RemoveActiveSession`; errors from the
latter two are logged and do not stop the remaining calls. -/
def moveSessionToHistory (db : DB) (fl : RepoFaults) (processName : String)
    (now : Nat) : DB × List RepoCall :=
  match getActiveSession db fl processName with
  | none => (db, [RepoCall.getActive])
  | some startTime =>
      let duration : Int := (now : Int) - (startTime : Int)
      if fl.addHistoryFails then
        (db, [RepoCall.getActive, RepoCall.addHistory])
      else
        let db1 : DB := { db with
          history := db.history ++
            [{ programName := processName, startTime := startTime,
               endTime := now, durationSeconds := duration }] }
        let db2 : DB := if fl.updateLifetimeFails then db1 else
          updateLifetime db1 processName duration
        let db3 : DB := if fl.removeActiveFails then db2 else
          removeActiveSession db2 processName
        (db3, [RepoCall.getActive, RepoCall.addHistory,
               RepoCall.updateLifetime, RepoCall.removeActive])

/-- Embedding of Go `strings.ToLower`: lowercase every character
(character-wise lowercasing, which is what the source relies on for its
ASCII program names). -/
def toLowerStr (s : String) : String :=
  String.mk (s.data.map Char.toLower)

/-- `EnsureProgram` from `sessions.go` (lines 35–55): lowercases the name,
inserts a fresh entry when absent, otherwise updates only the category and
project of the existing entry. -/
def ensureProgram (sm : SMap) (name category project : String) : SMap :=
  let n := toLowerStr name
  match alookup sm n with
  | none =>
      aset sm n { category := category, project := project, pids := ∅,
                  startAt := 0, lastSeen := 0 }
  | some tracked =>
      aset sm n { tracked with category := category, project := project }

/-- The fresh `&Tracked{PIDs: make(map[int]struct{})}` value that
`CreateSession` inserts for an unknown program name: zero-valued fields and
an empty PID set. -/
def emptyTracked : Tracked :=
  { category := "", project := "", pids := ∅, startAt := 0, lastSeen := 0 }

/-- `CreateSession` from `sessions.go` (lines 59–94).  The name is used
verbatim as the map key.  A fresh `Tracked` is created when absent; an
already-tracked PID only refreshes `lastSeen`; a new PID is added, and when
it is the first PID the start time is set and an `ActiveSession` row is
written (a write failure is logged and changes nothing else). -/
def createSession (sm : SMap) (db : DB) (fl : RepoFaults) (processName : String)
    (pid : Nat) (now : Nat) : SMap × DB :=
  let t := (alookup sm processName).getD emptyTracked
  if pid ∈ t.pids then
    (aset sm processName { t with lastSeen := now }, db)
  else
    let pids1 := insert pid t.pids
    let startAt1 := if pids1.card = 1 then now else t.startAt
    let t1 : Tracked := { t with pids := pids1, startAt := startAt1, lastSeen := now }
    let sm1 := aset sm processName t1
    if pids1.card = 1 then
      if fl.createActiveFails then (sm1, db)
      else (sm1, { db with active := db.active ++ [(processName, now)] })
    else
      (sm1, db)

/-- `EndSession` from `sessions.go` (lines 98–127).  Untracked program or
PID is a logged no-op; otherwise the PID is removed and `lastSeen`
refreshed, and when the live set becomes empty the session is committed via
`MoveSessionToHistory` and the map entry deleted unconditionally. -/
def endSession (sm : SMap) (db : DB) (fl : RepoFaults) (processName : String)
    (pid : Nat) (now : Nat) : SMap × DB :=
  match alookup sm processName with
  | none => (sm, db)
  | some t =>
      if pid ∈ t.pids then
        let t1 : Tracked := { t with pids := t.pids.erase pid, lastSeen := now }
        let sm1 := aset sm processName t1
        if t1.pids = ∅ then
          ((aerase sm1 processName), (moveSessionToHistory db fl processName now).1)
        else
          (sm1, db)
      else
        (sm, db)

/-- The `programsToClean` collection phase of `ValidateActiveSessions`
(lines 170–193): every tracked program that has at least one live PID and
whose PIDs all fail the existence probe `alive`. -/
def programsToClean (alive : Nat → Bool) (sm : SMap) : List String :=
  sm.filterMap (fun p =>
    if p.2.pids ≠ ∅ ∧ ∀ q ∈ p.2.pids, alive q = false then some p.1 else none)

/-- `ValidateActiveSessions` from `sessions.go` (lines 169–203): collect the
programs whose PIDs are all gone, then, outside the lock, commit each via
`MoveSessionToHistory` and delete its map entry unconditionally. -/
def validateActiveSessions (alive : Nat → Bool) (sm : SMap) (db : DB)
    (fl : RepoFaults) (now : Nat) : SMap × DB :=
  (programsToClean alive sm).foldl
    (fun st pname =>
      (aerase st.1 pname, (moveSessionToHistory st.2 fl pname now).1))
    (sm, db)

/-- The in-memory live-PID set recorded for a name (empty when the name has
no map entry). -/
def livePids (sm : SMap) (name : String) : Finset Nat :=
  match alookup sm name with
  | none => ∅
  | some t => t.pids

/-- The recorded session start time for a name, when an entry exists. -/
def startAtOf (sm : SMap) (name : String) : Option Nat :=
  (alookup sm name).map (fun t => t.startAt)

/-- Outcome of `syscall.Kill(pid, 0)` as observed by the Linux probe:
success, `ESRCH` (no such process), or any other error (e.g. `EPERM`). -/
inductive KillResult where
  | ok
  | esrch
  | other
deriving DecidableEq

/-- `isProcessRunning` from `sessions_linux.go` (lines 11–29), with the OS
modelled as a map from PID to the outcome of `syscall.Kill(pid, 0)`: no
error means alive, `ESRCH` means dead, and any other error (such as
permission denied) is treated as alive. -/
def isProcessRunningLinux (os : Nat → KillResult) (pid : Nat) : Bool :=
  match os pid with
  | KillResult.ok => true
  | KillResult.esrch => false
  | KillResult.other => true

/-- Outcome of the Windows probe's OS calls for one PID: `OpenProcess`
failed with the given error code (code 5 is `ERROR_ACCESS_DENIED`,
code 87 is `ERROR_INVALID_PARAMETER`, the code returned for a PID that
does not exist), or the process was opened and `GetExitCodeProcess`
failed, or it returned the given exit code (259 is `STILL_ACTIVE`). -/
inductive WinProbe where
  | openErr (code : Nat)
  | exitCodeErr
  | exitCode (code : Nat)
deriving DecidableEq

/-- `isProcessRunning` from `sessions_windows.go` (lines 8–29), with the OS
modelled as a map from PID to the outcome of the probe's OS calls: any
`OpenProcess` error yields `false`, any `GetExitCodeProcess` error yields
`false`, and an exit code yields `true` exactly when it is 259. -/
def isProcessRunningWindows (os : Nat → WinProbe) (pid : Nat) : Bool :=
  match os pid with
  | WinProbe.openErr _ => false
  | WinProbe.exitCodeErr => false
  | WinProbe.exitCode code => code == 259

/-- State visible to the Windows service control loop: the session
manager's map plus whether the heartbeat task and the process monitor are
running. -/
structure ServiceState where
  sessions         : SMap
  heartbeatRunning : Bool
  monitorRunning   : Bool
deriving DecidableEq

/-- Modelled from the spec: `eventCtrl.StopHeartbeats` is defined outside
the embedded sources; per the spec's Pause row, stopping the heartbeat task
leaves in-memory session state untouched. -/
def stopHeartbeats (st : ServiceState) : ServiceState :=
  { st with heartbeatRunning := false }

/-- Modelled from the spec: `eventCtrl.StopProcessMonitor` is defined
outside the embedded sources; per the spec's Pause row, stopping the
process monitor leaves in-memory session state untouched (no forced
commits). -/
def stopProcessMonitor (st : ServiceState) : ServiceState :=
  { st with monitorRunning := false }

/-- Modelled from the spec: `eventCtrl.RefreshProcessMonitor` is defined
outside the embedded sources; per the spec's Continue row, it restarts the
monitor and resynchronizes the live-PID sets against reality, modelled as
an arbitrary resync transformation of the session map. -/
def refreshProcessMonitor (resync : SMap → SMap) (st : ServiceState) : ServiceState :=
  { st with monitorRunning := true, sessions := resync st.sessions }

/-- The `svc.Pause` branch of `Execute` in `service_windows.go`
(lines 107–113): stop the heartbeat task when the WakaTime integration is
enabled, then stop the process monitor. -/
def pauseHandler (wakaTimeEnabled : Bool) (st : ServiceState) : ServiceState :=
  stopProcessMonitor (if wakaTimeEnabled then stopHeartbeats st else st)

/-- The `svc.Continue` branch of `Execute` in `service_windows.go`
(lines 115–118): instruct the process monitor to refresh. -/
def continueHandler (resync : SMap → SMap) (st : ServiceState) : ServiceState :=
  refreshProcessMonitor resync st

/-- A notification delivered by the process monitor: a process of the named
program started or stopped, observed at the given time. -/
inductive Op where
  | create (name : String) (pid : Nat) (now : Nat)
  | stop (name : String) (pid : Nat) (now : Nat)
deriving DecidableEq

/-- Dispatch one notification to `CreateSession` or `EndSession`. -/
def applyOp (fl : RepoFaults) (st : SMap × DB) : Op → SMap × DB
  | Op.create n p now => createSession st.1 st.2 fl n p now
  | Op.stop n p now => endSession st.1 st.2 fl n p now

/-- Run a finite sequence of notifications through the session manager. -/
def runOps (fl : RepoFaults) (st : SMap × DB) (ops : List Op) : SMap × DB :=
  ops.foldl (applyOp fl) st

/-- One step of the specification-side live-PID computation for a fixed
name: a create of that name inserts the PID, a stop of that name removes
it, notifications for other names are ignored. -/
def specStep (name : String) (s : Finset Nat) : Op → Finset Nat
  | Op.create n p _ => if n = name then insert p s else s
  | Op.stop n p _ => if n = name then s.erase p else s

/-- Specification-side live-PID set after a sequence of notifications,
starting from no live PIDs: exactly the PIDs for which a create occurred
with no later stop. -/
def specLive (name : String) (ops : List Op) : Finset Nat :=
  ops.foldl (specStep name) ∅

/-- An empty durable store, used in concrete instances. -/
def dbEmpty : DB := { active := [], history := [], catalog := [] }

/-- A store holding one open session for "editor", used in concrete
instances. -/
def dbEditor : DB :=
  { active := [("editor", 10)], history := [], catalog := [("editor", 0)] }

/-- Fault profile failing only the history append. -/
def flHistoryFails : RepoFaults := { noFaults with addHistoryFails := true }

/-- Fault profile failing only the lifetime update. -/
def flLifetimeFails : RepoFaults := { noFaults with updateLifetimeFails := true }

/-- Fault profile in which every repository call fails. -/
def flAllFail : RepoFaults :=
  { createActiveFails := true, getActiveFails := true, addHistoryFails := true,
    updateLifetimeFails := true, removeActiveFails := true }

/-- A manager tracking one program with one live PID, used in concrete
instances. -/
def smStarted : SMap :=
  [("editor", { category := "", project := "", pids := {3}, startAt := 7, lastSeen := 7 })]

/-- A manager tracking two programs, used in concrete sweep instances. -/
def smSweep : SMap :=
  [("x", { category := "", project := "", pids := {3, 4}, startAt := 1, lastSeen := 2 }),
   ("y", { category := "", project := "", pids := {9}, startAt := 1, lastSeen := 2 })]

/-- A probe reporting only PID 9 alive, used in concrete sweep instances. -/
def aliveOnly9 : Nat → Bool := fun p => p == 9

/-- A manager with metadata and an open session, used in concrete
instances. -/
def smMeta : SMap :=
  [("editor", { category := "old", project := "oldp", pids := {5}, startAt := 3, lastSeen := 4 })]

/-- The manager and store state reached from nothing by two create
notifications whose program names differ only in letter case. -/
def caseVariantState : SMap × DB :=
  runOps noFaults ([], dbEmpty) [Op.create "A" 1 1, Op.create "a" 2 2]

theorem alookup_aset_self {α : Type} (m : List (String × α)) (k : String) (v : α) :
    alookup (aset m k v) k = some v := by
  induction m with
  | nil => simp [aset, alookup]
  | cons p rest ih =>
      obtain ⟨k', w⟩ := p
      by_cases h : k' = k
      · simp [aset, h, alookup]
      · simp [aset, h, alookup, ih]

theorem alookup_aset_ne {α : Type} (m : List (String × α)) (k n : String) (v : α)
    (h : k ≠ n) : alookup (aset m k v) n = alookup m n := by
  induction m with
  | nil => simp [aset, alookup, h]
  | cons p rest ih =>
      obtain ⟨k', w⟩ := p
      by_cases hk : k' = k
      · subst hk
        simp [aset, alookup, h, ih]
      · simp [aset, hk, alookup, ih]

theorem alookup_aerase_self {α : Type} (m : List (String × α)) (k : String) :
    alookup (aerase m k) k = none := by
  induction m with
  | nil => simp [aerase, alookup]
  | cons p rest ih =>
      obtain ⟨k', w⟩ := p
      by_cases h : k' = k
      · simp [aerase, h, ih]
      · simp [aerase, h, alookup, ih]

theorem alookup_aerase_ne {α : Type} (m : List (String × α)) (k n : String)
    (h : k ≠ n) : alookup (aerase m k) n = alookup m n := by
  induction m with
  | nil => simp [aerase]
  | cons p rest ih =>
      obtain ⟨k', w⟩ := p
      by_cases hk : k' = k
      · subst hk
        simp [aerase, alookup, h, ih]
      · simp [aerase, hk, alookup, ih]

theorem alookup_mem {α : Type} {m : List (String × α)} {k : String} {v : α}
    (h : alookup m k = some v) : (k, v) ∈ m := by
  induction m with
  | nil => simp [alookup] at h
  | cons p rest ih =>
      obtain ⟨k', w⟩ := p
      by_cases hk : k' = k
      · subst hk
        simp [alookup] at h
        simp [h]
      · simp [alookup, hk] at h
        exact List.mem_cons_of_mem _ (ih h)

theorem livePids_eq_getD (sm : SMap) (name : String) :
    livePids sm name = ((alookup sm name).getD emptyTracked).pids := by
  unfold livePids
  cases alookup sm name <;> simp [emptyTracked]

theorem livePids_createSession (sm : SMap) (db : DB) (fl : RepoFaults)
    (n : String) (p : Nat) (now : Nat) (name : String) :
    livePids (createSession sm db fl n p now).1 name =
      specStep name (livePids sm name) (Op.create n p now) := by
  cases hA : alookup sm n with
  | none =>
      by_cases hf : fl.createActiveFails = true
      all_goals by_cases hn : n = name
      · subst hn
        simp [createSession, hA, emptyTracked, hf, specStep, livePids,
              alookup_aset_self]
      · simp [createSession, hA, emptyTracked, hf, specStep, hn, livePids,
              alookup_aset_ne _ _ _ _ hn]
      · subst hn
        simp [createSession, hA, emptyTracked, hf, specStep, livePids,
              alookup_aset_self]
      · simp [createSession, hA, emptyTracked, hf, specStep, hn, livePids,
              alookup_aset_ne _ _ _ _ hn]
  | some t =>
      by_cases hp : p ∈ t.pids
      · by_cases hn : n = name
        · subst hn
          simp [createSession, hA, hp, specStep, livePids, alookup_aset_self]
        · simp [createSession, hA, hp, specStep, hn, livePids,
                alookup_aset_ne _ _ _ _ hn]
      · by_cases hE : t.pids = ∅
        · by_cases hf : fl.createActiveFails = true
          all_goals by_cases hn : n = name
          · subst hn
            simp [createSession, hA, hp, hE, hf, specStep, livePids,
                  alookup_aset_self]
          · simp [createSession, hA, hp, hE, hf, specStep, hn, livePids,
                  alookup_aset_ne _ _ _ _ hn]
          · subst hn
            simp [createSession, hA, hp, hE, hf, specStep, livePids,
                  alookup_aset_self]
          · simp [createSession, hA, hp, hE, hf, specStep, hn, livePids,
                  alookup_aset_ne _ _ _ _ hn]
        · by_cases hn : n = name
          · subst hn
            simp [createSession, hA, hp, hE, Finset.card_insert_of_not_mem hp,
                  specStep, livePids, alookup_aset_self]
          · simp [createSession, hA, hp, hE, Finset.card_insert_of_not_mem hp,
                  specStep, hn, livePids, alookup_aset_ne _ _ _ _ hn]

theorem livePids_endSession (sm : SMap) (db : DB) (fl : RepoFaults)
    (n : String) (p : Nat) (now : Nat) (name : String) :
    livePids (endSession sm db fl n p now).1 name =
      specStep name (livePids sm name) (Op.stop n p now) := by
  cases hA : alookup sm n with
  | none =>
      by_cases hn : n = name
      · subst hn
        simp [endSession, hA, specStep, livePids]
      · simp [endSession, hA, specStep, hn]
  | some t =>
      by_cases hp : p ∈ t.pids
      · by_cases he : t.pids.erase p = ∅
        · by_cases hn : n = name
          · subst hn
            simp [endSession, hA, hp, he, livePids, alookup_aerase_self, specStep, he]
          · simp [endSession, hA, hp, he, livePids, specStep, hn,
                  alookup_aerase_ne _ _ _ hn, alookup_aset_ne _ _ _ _ hn]
        · by_cases hn : n = name
          · subst hn
            simp [endSession, hA, hp, he, livePids, alookup_aset_self, specStep]
          · simp [endSession, hA, hp, he, livePids, specStep, hn,
                  alookup_aset_ne _ _ _ _ hn]
      · by_cases hn : n = name
        · subst hn
          simp [endSession, hA, hp, specStep, livePids]
        · simp [endSession, hA, hp, specStep, hn, livePids]

theorem livePids_runOps (fl : RepoFaults) (ops : List Op) :
    ∀ (sm : SMap) (db : DB) (name : String),
      livePids (runOps fl (sm, db) ops).1 name =
        ops.foldl (specStep name) (livePids sm name) := by
  induction ops with
  | nil =>
      intro sm db name
      rfl
  | cons op rest ih =>
      intro sm db name
      show livePids (runOps fl (applyOp fl (sm, db) op) rest).1 name = _
      have h2 := ih (applyOp fl (sm, db) op).1 (applyOp fl (sm, db) op).2 name
      rw [Prod.mk.eta] at h2
      rw [h2, List.foldl_cons]
      congr 1
      cases op with
      | create m q nw => exact livePids_createSession sm db fl m q nw name
      | stop m q nw => exact livePids_endSession sm db fl m q nw name

theorem alookup_of_mem_nodup {α : Type} {m : List (String × α)}
    (hN : (m.map Prod.fst).Nodup) {k : String} {v : α} (hm : (k, v) ∈ m) :
    alookup m k = some v := by
  induction m with
  | nil => cases hm
  | cons p rest ih =>
      obtain ⟨k', w⟩ := p
      simp only [List.map_cons, List.nodup_cons] at hN
      rcases List.mem_cons.mp hm with h | h
      · obtain ⟨h1, h2⟩ := Prod.mk.injEq .. ▸ h
        subst h1
        subst h2
        simp [alookup]
      · have hk : k' ≠ k := by
          intro e
          apply hN.1
          rw [e]
          exact List.mem_map_of_mem Prod.fst h
        simp only [alookup, hk, if_false]
        exact ih hN.2 h

theorem foldl_cleanup_fst (g : DB → String → DB) (names : List String) :
    ∀ (sm : SMap) (db : DB),
      (names.foldl (fun st pname => (aerase st.1 pname, g st.2 pname)) (sm, db)).1 =
        names.foldl aerase sm := by
  induction names with
  | nil =>
      intro sm db
      rfl
  | cons a rest ih =>
      intro sm db
      exact ih (aerase sm a) (g db a)

theorem validateActiveSessions_fst (alive : Nat → Bool) (sm : SMap) (db : DB)
    (fl : RepoFaults) (now : Nat) :
    (validateActiveSessions alive sm db fl now).1 =
      (programsToClean alive sm).foldl aerase sm := by
  unfold validateActiveSessions
  exact foldl_cleanup_fst (fun d pname => (moveSessionToHistory d fl pname now).1)
    (programsToClean alive sm) sm db

theorem alookup_foldl_aerase_not_mem {α : Type} (names : List String) :
    ∀ (sm : List (String × α)) (name : String), name ∉ names →
      alookup (names.foldl aerase sm) name = alookup sm name := by
  induction names with
  | nil =>
      intro sm name _
      rfl
  | cons a rest ih =>
      intro sm name h
      have h1 : name ≠ a := by
        intro e
        apply h
        rw [e]
        exact List.mem_cons_self a rest
      have h2 : name ∉ rest := fun e => h (List.mem_cons_of_mem _ e)
      rw [List.foldl_cons, ih (aerase sm a) name h2,
          alookup_aerase_ne sm a name (Ne.symm h1)]

theorem alookup_foldl_aerase_mem {α : Type} (names : List String) :
    ∀ (sm : List (String × α)) (name : String), name ∈ names →
      alookup (names.foldl aerase sm) name = none := by
  induction names with
  | nil =>
      intro sm name h
      simp at h
  | cons a rest ih =>
      intro sm name h
      by_cases hr : name ∈ rest
      · rw [List.foldl_cons]
        exact ih _ _ hr
      · have ha : name = a := by
          rcases List.mem_cons.mp h with h' | h'
          · exact h'
          · exact absurd h' hr
        subst ha
        rw [List.foldl_cons, alookup_foldl_aerase_not_mem rest _ _ hr,
            alookup_aerase_self]

theorem mem_programsToClean {alive : Nat → Bool} {sm : SMap} {name : String}
    {t : Tracked} (hN : (sm.map Prod.fst).Nodup) (hA : alookup sm name = some t) :
    name ∈ programsToClean alive sm ↔
      (t.pids ≠ ∅ ∧ ∀ q ∈ t.pids, alive q = false) := by
  constructor
  · intro h
    rcases List.mem_filterMap.mp h with ⟨⟨pn, pt⟩, hp, heq⟩
    by_cases hc : pt.pids ≠ ∅ ∧ ∀ q ∈ pt.pids, alive q = false
    · rw [if_pos hc] at heq
      have he : pn = name := Option.some.inj heq
      subst he
      have h2 : alookup sm pn = some pt := alookup_of_mem_nodup hN hp
      rw [hA] at h2
      have h3 : t = pt := Option.some.inj h2
      rw [h3]
      exact hc
    · rw [if_neg hc] at heq
      cases heq
  · intro hc
    apply List.mem_filterMap.mpr
    refine ⟨(name, t), alookup_mem hA, ?_⟩
    rw [if_pos]
    exact hc

/-- C1 counterexample: with an open "editor" session whose start time is
read successfully, a failing history append makes `MoveSessionToHistory`
return early, so the lifetime update and the active-row removal are never
attempted — the three persistence calls are not independent as claimed. -/
theorem c1_counterexample :
    getActiveSession dbEditor flHistoryFails "editor" = some 10 ∧
    RepoCall.updateLifetime ∉ (moveSessionToHistory dbEditor flHistoryFails "editor" 25).2 ∧
    RepoCall.removeActive ∉ (moveSessionToHistory dbEditor flHistoryFails "editor" 25).2 := by
  decide

/-- C1 (amended): for every invocation of `MoveSessionToHistory` that
successfully reads the open ActiveSession start time, the history append is
attempted; if it fails, the lifetime update and the active-row removal are
both skipped; if it succeeds, the lifetime update and the active-row
removal are each attempted regardless of whether either of them fails. -/
theorem c1_amended (db : DB) (fl : RepoFaults) (name : String) (now : Nat)
    (hg : fl.getActiveFails = false) (hs : (alookup db.active name).isSome = true) :
    (fl.addHistoryFails = true →
        (moveSessionToHistory db fl name now).2 =
          [RepoCall.getActive, RepoCall.addHistory]) ∧
    (fl.addHistoryFails = false →
        (moveSessionToHistory db fl name now).2 =
          [RepoCall.getActive, RepoCall.addHistory, RepoCall.updateLifetime,
           RepoCall.removeActive]) := by
  rcases Option.isSome_iff_exists.mp hs with ⟨s, hA⟩
  constructor
  · intro h
    simp [moveSessionToHistory, getActiveSession, hg, hA, h]
  · intro h
    simp [moveSessionToHistory, getActiveSession, hg, hA, h]

/-- C1 witness: concrete run of the amended claim — with only the lifetime
update failing, all four repository calls are attempted. -/
theorem c1_amended_witness :
    (moveSessionToHistory dbEditor flLifetimeFails "editor" 25).2 =
      [RepoCall.getActive, RepoCall.addHistory, RepoCall.updateLifetime,
       RepoCall.removeActive] :=
  (c1_amended dbEditor flLifetimeFails "editor" 25 (by decide) (by decide)).2 (by decide)

/-- C2 counterexample: two createSession invocations whose program names
differ only in letter case address distinct TrackedProgram entries and each
opens its own active session, so the map key is not case-insensitive for
createSession. -/
theorem c2_counterexample :
    livePids caseVariantState.1 "A" = {1} ∧
    livePids caseVariantState.1 "a" = {2} ∧
    caseVariantState.2.active = [("A", 1), ("a", 2)] ∧
    ("A" : String) ≠ "a" := by
  decide

/-- C2 (amended): only `EnsureProgram` normalizes its name argument to
lower case, so ensureProgram invocations whose names differ only in letter
case address the same TrackedProgram entry; `CreateSession` and
`EndSession` use the name verbatim as a case-sensitive key, so
case-variant names address distinct entries and may each hold an active
session. -/
theorem c2_amended (sm : SMap) (n1 n2 category project : String)
    (h : toLowerStr n1 = toLowerStr n2) :
    ensureProgram sm n1 category project = ensureProgram sm n2 category project := by
  unfold ensureProgram
  rw [h]

/-- C2 witness: concrete run of the amended claim at two case-variant
names. -/
theorem c2_amended_witness :
    ensureProgram [] "Editor" "c" "p" = ensureProgram [] "EDITOR" "c" "p" :=
  c2_amended [] "Editor" "EDITOR" "c" "p" (by decide)

/-- C3 counterexample: the Windows probe reports dead (`false`) when
`OpenProcess` fails with `ERROR_ACCESS_DENIED` (code 5, which is not the
no-such-process code 87), so the alive bias does not hold for the Windows
implementation. -/
theorem c3_counterexample :
    (5 : Nat) ≠ 87 ∧
    isProcessRunningWindows (fun _ => WinProbe.openErr 5) 7 = false := by
  decide

/-- C3 (amended): the alive bias holds for the Linux probe — any
`syscall.Kill` error other than ESRCH makes it report alive — while the
Windows probe reports dead on every `OpenProcess` failure, including
permission denied. -/
theorem c3_amended :
    (∀ (os : Nat → KillResult) (pid : Nat), os pid = KillResult.other →
        isProcessRunningLinux os pid = true) ∧
    (∀ (os : Nat → WinProbe) (pid code : Nat), os pid = WinProbe.openErr code →
        isProcessRunningWindows os pid = false) := by
  constructor
  · intro os pid h
    simp [isProcessRunningLinux, h]
  · intro os pid code h
    simp [isProcessRunningWindows, h]

/-- C3 witness: concrete runs of the amended claim — a Linux probe whose
Kill call fails with a non-ESRCH error reports alive, a Windows probe whose
OpenProcess fails reports dead. -/
theorem c3_amended_witness :
    isProcessRunningLinux (fun _ => KillResult.other) 3 = true ∧
    isProcessRunningWindows (fun _ => WinProbe.openErr 5) 3 = false :=
  ⟨c3_amended.1 (fun _ => KillResult.other) 3 rfl,
   c3_amended.2 (fun _ => WinProbe.openErr 5) 3 5 rfl⟩

/-- C4: `MoveSessionToHistory` is idempotent — a second call in a row for
the same program leaves the durable store exactly as the first call left
it (no second history row, no second lifetime increment, in fact no change
at all) and attempts only the active-session read, which is handled as a
no-op. -/
theorem c4_moveSessionToHistory_idempotent (db : DB) (name : String) (t1 t2 : Nat) :
    moveSessionToHistory (moveSessionToHistory db noFaults name t1).1 noFaults name t2 =
      ((moveSessionToHistory db noFaults name t1).1, [RepoCall.getActive]) := by
  cases hA : alookup db.active name with
  | none =>
      simp [moveSessionToHistory, getActiveSession, noFaults, hA]
  | some s =>
      simp [moveSessionToHistory, getActiveSession, noFaults, hA, updateLifetime,
            removeActiveSession, alookup_aerase_self]

/-- C5: for every program name and every finite sequence of createSession
and endSession notifications run from an empty manager, under any fault
profile, the in-memory live-PID set recorded for that name equals the
specification-side set of PIDs created and not since ended, regardless of
interleaving with other program names. -/
theorem c5_livePids_eq_specLive (fl : RepoFaults) (db : DB) (ops : List Op)
    (name : String) :
    livePids (runOps fl ([], db) ops).1 name = specLive name ops := by
  rw [livePids_runOps fl ops [] db name]
  rfl

/-- C6: `CreateSession` assigns the start time exactly once per open
session — when the live-PID set is empty (entry absent or empty set) the
call sets it to the current time, and when the live-PID set is non-empty
(whether the PID is already tracked or new) the call leaves it
unchanged. -/
theorem c6_startAt_setOnce (sm : SMap) (db : DB) (fl : RepoFaults) (name : String)
    (pid : Nat) (now : Nat) :
    (livePids sm name ≠ ∅ →
        startAtOf (createSession sm db fl name pid now).1 name = startAtOf sm name) ∧
    (livePids sm name = ∅ →
        startAtOf (createSession sm db fl name pid now).1 name = some now) := by
  cases hA : alookup sm name with
  | none =>
      constructor
      · intro h
        exact absurd (by simp [livePids, hA]) h
      · intro _
        by_cases hf : fl.createActiveFails = true
        · simp [createSession, hA, emptyTracked, hf, startAtOf, alookup_aset_self]
        · simp [createSession, hA, emptyTracked, hf, startAtOf, alookup_aset_self]
  | some t =>
      by_cases hp : pid ∈ t.pids
      · constructor
        · intro _
          simp [createSession, hA, hp, startAtOf, alookup_aset_self]
        · intro h
          have hE : t.pids = ∅ := by simpa [livePids, hA] using h
          rw [hE] at hp
          exact absurd hp (Finset.not_mem_empty pid)
      · by_cases hE : t.pids = ∅
        · constructor
          · intro h
            exact absurd (by simp [livePids, hA, hE]) h
          · intro _
            by_cases hf : fl.createActiveFails = true
            · simp [createSession, hA, hp, hE, hf, startAtOf, alookup_aset_self]
            · simp [createSession, hA, hp, hE, hf, startAtOf, alookup_aset_self]
        · constructor
          · intro _
            simp [createSession, hA, hp, hE, Finset.card_insert_of_not_mem hp,
                  startAtOf, alookup_aset_self]
          · intro h
            have : t.pids = ∅ := by simpa [livePids, hA] using h
            exact absurd this hE

/-- C6 witness: with PID 3 already live for "editor" (start time 7), a
createSession for new PID 9 keeps the start time 7; from an empty manager
the same call sets the start time to the call's time 50. -/
theorem c6_witness :
    startAtOf (createSession smStarted dbEmpty noFaults "editor" 9 50).1 "editor" = some 7 ∧
    startAtOf (createSession [] dbEmpty noFaults "editor" 9 50).1 "editor" = some 50 := by
  constructor
  · have h := (c6_startAt_setOnce smStarted dbEmpty noFaults "editor" 9 50).1 (by decide)
    rw [h]
    decide
  · exact (c6_startAt_setOnce [] dbEmpty noFaults "editor" 9 50).2 (by decide)

/-- C7: on a sweep tick, a tracked program with a non-empty live-PID set is
marked for cleanup and its entry removed exactly when the probe reports
every one of its PIDs dead; when at least one PID probes alive the program
is not marked (so not committed) and its entry is unchanged. -/
theorem c7_sweep_commits_iff_all_dead (alive : Nat → Bool) (sm : SMap) (db : DB)
    (fl : RepoFaults) (now : Nat) (name : String) (t : Tracked)
    (hN : (sm.map Prod.fst).Nodup) (hA : alookup sm name = some t)
    (hne : t.pids ≠ ∅) :
    ((∀ q ∈ t.pids, alive q = false) →
        name ∈ programsToClean alive sm ∧
        alookup (validateActiveSessions alive sm db fl now).1 name = none) ∧
    ((∃ q ∈ t.pids, alive q = true) →
        name ∉ programsToClean alive sm ∧
        alookup (validateActiveSessions alive sm db fl now).1 name = some t) := by
  constructor
  · intro hdead
    have hm : name ∈ programsToClean alive sm :=
      (mem_programsToClean hN hA).mpr ⟨hne, hdead⟩
    refine ⟨hm, ?_⟩
    rw [validateActiveSessions_fst]
    exact alookup_foldl_aerase_mem _ _ _ hm
  · intro halive
    have hm : name ∉ programsToClean alive sm := by
      intro h
      rcases halive with ⟨q, hq, hqa⟩
      have := ((mem_programsToClean hN hA).mp h).2 q hq
      rw [hqa] at this
      cases this
    refine ⟨hm, ?_⟩
    rw [validateActiveSessions_fst, alookup_foldl_aerase_not_mem _ _ _ hm, hA]

/-- C7 witness: with PIDs 3 and 4 dead, program "x" is committed and
removed on the tick; with PID 9 alive, program "y" is untouched. -/
theorem c7_witness :
    ("x" ∈ programsToClean aliveOnly9 smSweep ∧
      alookup (validateActiveSessions aliveOnly9 smSweep dbEmpty noFaults 8).1 "x" = none) ∧
    ("y" ∉ programsToClean aliveOnly9 smSweep ∧
      alookup (validateActiveSessions aliveOnly9 smSweep dbEmpty noFaults 8).1 "y" =
        some { category := "", project := "", pids := {9}, startAt := 1, lastSeen := 2 }) := by
  constructor
  · exact (c7_sweep_commits_iff_all_dead aliveOnly9 smSweep dbEmpty noFaults 8 "x"
      { category := "", project := "", pids := {3, 4}, startAt := 1, lastSeen := 2 }
      (by decide) (by decide) (by decide)).1 (by decide)
  · exact (c7_sweep_commits_iff_all_dead aliveOnly9 smSweep dbEmpty noFaults 8 "y"
      { category := "", project := "", pids := {9}, startAt := 1, lastSeen := 2 }
      (by decide) (by decide) (by decide)).2 ⟨9, by decide, by decide⟩

/-- C8: a Pause request followed by a Continue request changes the session
map only through the explicit resync: the Pause handler leaves the session
map untouched, and after the Continue handler the session map is exactly
the resync of the original. -/
theorem c8_pauseContinue_framesSessions (resync : SMap → SMap)
    (wakaTimeEnabled : Bool) (st : ServiceState) :
    (pauseHandler wakaTimeEnabled st).sessions = st.sessions ∧
    (continueHandler resync (pauseHandler wakaTimeEnabled st)).sessions =
      resync st.sessions := by
  constructor
  · by_cases h : wakaTimeEnabled <;>
      simp [pauseHandler, stopProcessMonitor, stopHeartbeats, h]
  · by_cases h : wakaTimeEnabled <;>
      simp [continueHandler, refreshProcessMonitor, pauseHandler,
            stopProcessMonitor, stopHeartbeats, h]

/-- C9: when `EnsureProgram` is called for a name already present (under the
lowercased key), it updates only the category and project of the existing
entry; its PID set, start time and last-seen time are unchanged. -/
theorem c9_ensureProgram_preservesSession (sm : SMap)
    (name category project : String) (t : Tracked)
    (h : alookup sm (toLowerStr name) = some t) :
    alookup (ensureProgram sm name category project) (toLowerStr name) =
      some { category := category, project := project, pids := t.pids,
             startAt := t.startAt, lastSeen := t.lastSeen } := by
  simp [ensureProgram, h, alookup_aset_self]

/-- C9 witness: re-seeding metadata for the tracked "editor" entry replaces
category and project and keeps the open session's PID set and
timestamps. -/
theorem c9_witness :
    alookup (ensureProgram smMeta "Editor" "cat" "proj") (toLowerStr "Editor") =
      some { category := "cat", project := "proj", pids := {5}, startAt := 3,
             lastSeen := 4 } :=
  c9_ensureProgram_preservesSession smMeta "Editor" "cat" "proj"
    { category := "old", project := "oldp", pids := {5}, startAt := 3, lastSeen := 4 }
    (by decide)

/-- C10: the in-memory entry is deleted unconditionally after the commit
attempt, under every fault profile (including a failing active-session
read): an endSession that empties the live set removes the entry, and a
sweep tick removes every entry it marked for cleanup. -/
theorem c10_removal_unconditional :
    (∀ (sm : SMap) (db : DB) (fl : RepoFaults) (name : String) (pid now : Nat)
        (t : Tracked), alookup sm name = some t → pid ∈ t.pids →
        t.pids.erase pid = ∅ →
        alookup (endSession sm db fl name pid now).1 name = none) ∧
    (∀ (alive : Nat → Bool) (sm : SMap) (db : DB) (fl : RepoFaults) (now : Nat)
        (name : String), name ∈ programsToClean alive sm →
        alookup (validateActiveSessions alive sm db fl now).1 name = none) := by
  constructor
  · intro sm db fl name pid now t hA hp he
    simp [endSession, hA, hp, he, alookup_aerase_self]
  · intro alive sm db fl now name hm
    rw [validateActiveSessions_fst]
    exact alookup_foldl_aerase_mem _ _ _ hm

/-- C10 witness: with every repository call failing, ending the last PID of
"editor" still removes its entry, and the sweep still removes the marked
program "x". -/
theorem c10_witness :
    alookup (endSession smStarted dbEmpty flAllFail "editor" 3 9).1 "editor" = none ∧
    alookup (validateActiveSessions aliveOnly9 smSweep dbEmpty flAllFail 8).1 "x" = none := by
  constructor
  · exact c10_removal_unconditional.1 smStarted dbEmpty flAllFail "editor" 3 9
      { category := "", project := "", pids := {3}, startAt := 7, lastSeen := 7 }
      (by decide) (by decide) (by decide)
  · exact c10_removal_unconditional.2 aliveOnly9 smSweep dbEmpty flAllFail 8 "x" (by decide)
